import Mathlib

/-!
Shallow embedding of the retry/recovery orchestration layer of the
MATERIALICONSAE panel (class `ErrorRecoveryManager`, identical copies in
`src/app.js` and `src/ui.js`).

Modelling conventions:
* JS numbers used by the backoff arithmetic are modelled as `ℚ`
  (all the operations involved — `*`, `Math.pow` with a natural exponent,
  `Math.min` — are exact on the rationals appearing in the claims).
* Timestamps (`Date.now()` values) and the `resetTimeout` option are
  modelled as `Int`, so that `now - lastFailureTime < resetTimeout`
  behaves exactly like the JS signed comparison.
* The asynchronous action passed to `executeWithRetry` is modelled as a
  function `Nat → Except String A` from the 1-based attempt number to the
  outcome of that invocation; errors are identified with their `.message`
  string.  Awaiting is sequential in the source (single logical task), so
  a run is a pure fold that records a trace of events: invocations,
  `onRetry` callback calls, swallowed callback failures (the log line) and
  the waits between attempts.
* The process-wide `this.retryAttempts` map is modelled as a function
  `String → Option RegistryEntry`.  The map holds plain numbers (retry
  failure counters) and circuit-state objects under the same key space;
  `(map.get(op) || 0) + 1` on a circuit object follows JS coercion and
  produces the string `"[object Object]1"`, which the embedding records
  with the `RegistryEntry.jsString` constructor.
-/

namespace ErrorRecovery

/-- Circuit-breaker state tag: the `'closed' | 'open' | 'half-open'`
strings of the source (`open` is a Lean keyword, hence `opened`). -/
inductive CBState where
  | closed
  | opened
  | halfOpen
deriving DecidableEq, Repr

/-- The circuit object stored by `getCircuitState`:
`{ state, failureCount, lastFailureTime, lastSuccessTime }`. -/
structure CircuitState where
  state : CBState
  failureCount : Nat
  lastFailureTime : Int
  lastSuccessTime : Int
deriving DecidableEq, Repr

/-- The circuit object `getCircuitState` lazily creates:
`{ state: 'closed', failureCount: 0, lastFailureTime: 0, lastSuccessTime: Date.now() }`. -/
def freshCircuit (now : Int) : CircuitState :=
  { state := .closed, failureCount := 0, lastFailureTime := 0, lastSuccessTime := now }

/-- Outcome of one `executeWithCircuitBreaker` call: fast rejection while
the circuit is open, or the wrapped action's own success/error. -/
inductive CBResult (A : Type) where
  | circuitOpen
  | ok (a : A)
  | err (e : String)
deriving DecidableEq, Repr

/-- One call of `executeWithCircuitBreaker` (src/app.js lines 1940-1984) at
time `now`, for a circuit currently in state `c`; `outcome` is what the
action would produce if it were invoked.  Returns the call's result and the
updated circuit.  The `.circuitOpen` branch returns `c` unchanged and
ignores `outcome`: the action is not invoked. -/
def cbStep (failureThreshold : Nat) (resetTimeout now : Int) (c : CircuitState)
    (outcome : Except String A) : CBResult A × CircuitState :=
  if c.state = .opened ∧ now - c.lastFailureTime < resetTimeout then
    (.circuitOpen, c)
  else
    let c1 := if c.state = .opened then { c with state := .halfOpen } else c
    match outcome with
    | .ok v =>
        (.ok v, { c1 with state := .closed, failureCount := 0, lastSuccessTime := now })
    | .error e =>
        let c2 := { c1 with failureCount := c1.failureCount + 1, lastFailureTime := now }
        if failureThreshold ≤ c2.failureCount then
          (.err e, { c2 with state := .opened })
        else
          (.err e, c2)

/-- A sequence of `executeWithCircuitBreaker` calls on one circuit: each
list element is the call's timestamp and the action's outcome were it
invoked.  Returns the final circuit state. -/
def cbRun (failureThreshold : Nat) (resetTimeout : Int) :
    List (Int × Except String A) → CircuitState → CircuitState
  | [], c => c
  | (now, outcome) :: rest, c =>
      cbRun failureThreshold resetTimeout rest (cbStep failureThreshold resetTimeout now c outcome).2

/-- A value stored in `this.retryAttempts`: a plain retry-failure counter,
a circuit object, or a string produced by JS `+` coercion when a counter
update hits a circuit object. -/
inductive RegistryEntry where
  | counter (n : Nat)
  | circuit (c : CircuitState)
  | jsString (s : String)
deriving DecidableEq, Repr

/-- Whether a registry value is a plain integer counter. -/
def isCounterEntry : Option RegistryEntry → Bool
  | some (.counter _) => true
  | _ => false

/-- The process-wide `this.retryAttempts` map. -/
def Registry : Type := String → Option RegistryEntry

/-- The empty registry (fresh `new Map()`). -/
def emptyRegistry : Registry := fun _ => none

/-- `this.retryAttempts.delete(key)`. -/
def Registry.del (reg : Registry) (k : String) : Registry :=
  fun x => if x = k then none else reg x

/-- `this.retryAttempts.set(key, v)`. -/
def Registry.set (reg : Registry) (k : String) (v : RegistryEntry) : Registry :=
  fun x => if x = k then some v else reg x

/-- JS evaluation of `(this.retryAttempts.get(operationName) || 0) + 1`:
a number is incremented (`0` is falsy, so `0 → 1` still holds), a circuit
object is truthy and `object + 1` string-coerces to `"[object Object]1"`,
a non-empty string gets `"1"` appended, the empty string is falsy. -/
def jsTruthyIncrement : Option RegistryEntry → RegistryEntry
  | none => .counter 1
  | some (.counter n) => .counter (n + 1)
  | some (.circuit _) => .jsString "[object Object]1"
  | some (.jsString s) => if s = "" then .counter 1 else .jsString (s ++ "1")

/-- `getCircuitState` (src/app.js lines 1986-1997): returns the existing
entry under `circuitKey` whatever it is, lazily creating a fresh closed
circuit when the key is absent.  `now` is `Date.now()` at creation time. -/
def getCircuitState (reg : Registry) (circuitKey : String) (now : Int) :
    RegistryEntry × Registry :=
  match reg circuitKey with
  | some entry => (entry, reg)
  | none => (.circuit (freshCircuit now), reg.set circuitKey (.circuit (freshCircuit now)))

/-- The backoff computation of the retry loop (src/app.js lines 1912-1915):
`Math.min(baseDelay * Math.pow(backoffMultiplier, attempt - 1), maxDelay)`. -/
def backoffDelay (baseDelay backoffMultiplier maxDelay : ℚ) (attempt : Nat) : ℚ :=
  min (baseDelay * backoffMultiplier ^ (attempt - 1)) maxDelay

/-- The options object of `executeWithRetry`.  `shouldRetry`/`onRetry`
default to `null`, modelled as `none`.  The `onRetry` callback may itself
fail; `Except.error m` carries the failure's message. -/
structure RetryConfig where
  maxRetries : Nat
  baseDelay : ℚ
  backoffMultiplier : ℚ
  maxDelay : ℚ
  shouldRetry : Option (String → Nat → Bool)
  onRetry : Option (String → Nat → ℚ → Except String Unit)

/-- The constructor defaults: `maxRetries = 3`, `baseDelay = 1000`,
`backoffMultiplier = 2`, `maxDelay = 10000`, no callbacks. -/
def defaultRetryConfig : RetryConfig :=
  { maxRetries := 3, baseDelay := 1000, backoffMultiplier := 2, maxDelay := 10000,
    shouldRetry := none, onRetry := none }

/-- Observable events of one `executeWithRetry` run, in program order:
an invocation of the action with its 1-based attempt number, an `onRetry`
callback invocation, the logged (swallowed) failure of that callback, and
a wait of the computed delay. -/
inductive RetryEvent where
  | invoke (attempt : Nat)
  | onRetryCall (attempt : Nat) (delay : ℚ)
  | onRetryFailed (attempt : Nat) (msg : String)
  | wait (delay : ℚ)
deriving DecidableEq, Repr

/-- Structured outcome of the attempt loop: the returned value, or the
last error when the loop gives up. -/
inductive RetryOutcome (A : Type) where
  | success (a : A)
  | failed (lastError : String)
deriving DecidableEq, Repr

/-- `if (shouldRetry && !shouldRetry(error, attempt)) break;` — absent
classifier means always retry. -/
def shouldRetryCheck (sr : Option (String → Nat → Bool)) (e : String) (attempt : Nat) : Bool :=
  match sr with
  | none => true
  | some f => f e attempt

/-- Events generated by the guarded `onRetry` invocation: the call itself,
plus the logged failure when the callback throws.  The `try/catch` around
`await onRetry(...)` swallows the failure. -/
def onRetryEvents (cb : Option (String → Nat → ℚ → Except String Unit))
    (e : String) (attempt : Nat) (delay : ℚ) : List RetryEvent :=
  match cb with
  | none => []
  | some f =>
      match f e attempt delay with
      | .ok _ => [.onRetryCall attempt delay]
      | .error m => [.onRetryCall attempt delay, .onRetryFailed attempt m]

/-- The attempt loop of `executeWithRetry` (src/app.js lines 1883-1931),
started at `attempt` with `remaining` further attempts allowed after this
one (the top-level call uses `attempt = 1`, `remaining = maxRetries`, so
`remaining = 0` is exactly the `attempt > maxRetries` break).  Returns the
event trace and the structured outcome. -/
def retryLoop (cfg : RetryConfig) (action : Nat → Except String A)
    (attempt remaining : Nat) : List RetryEvent × RetryOutcome A :=
  match action attempt with
  | .ok v => ([.invoke attempt], .success v)
  | .error e =>
      if shouldRetryCheck cfg.shouldRetry e attempt then
        match remaining with
        | 0 => ([.invoke attempt], .failed e)
        | r + 1 =>
            let d := backoffDelay cfg.baseDelay cfg.backoffMultiplier cfg.maxDelay attempt
            let rest := retryLoop cfg action (attempt + 1) r
            (.invoke attempt :: (onRetryEvents cfg.onRetry e attempt d ++ .wait d :: rest.1),
             rest.2)
      else
        ([.invoke attempt], .failed e)

/-- The message of the error thrown after the loop gives up:
`` `${operationName} failed after ${maxRetries + 1} attempts. Last error: ${lastError.message}` ``. -/
def failureMessage (operationName : String) (maxRetries : Nat) (lastError : String) : String :=
  operationName ++ " failed after " ++ toString (maxRetries + 1) ++
    " attempts. Last error: " ++ lastError

/-- The message claim C5 describes, following the spec's words: a failure
message carrying the number of attempts ACTUALLY made (not the configured
`maxRetries + 1` the source interpolates).  Kept separate from
`failureMessage` so the two can be compared. -/
def claimedFailureMessage (operationName : String) (attemptsMade : Nat) (lastError : String) :
    String :=
  operationName ++ " failed after " ++ toString attemptsMade ++
    " attempts. Last error: " ++ lastError

/-- Result of a whole `executeWithRetry` call: the event trace, the
returned value or thrown error (by message), and the registry after the
call. -/
structure RetryRun (A : Type) where
  trace : List RetryEvent
  result : Except String A
  registry : Registry

/-- `executeWithRetry(operationName, operation, options)` against registry
`reg`: runs the attempt loop; on success deletes the operation's registry
entry and returns the value; on final failure sets the entry to
`(get(op) || 0) + 1` and throws the formatted error. -/
def executeWithRetry (operationName : String) (action : Nat → Except String A)
    (cfg : RetryConfig) (reg : Registry) : RetryRun A :=
  let run := retryLoop cfg action 1 cfg.maxRetries
  match run.2 with
  | .success v => ⟨run.1, .ok v, reg.del operationName⟩
  | .failed e =>
      ⟨run.1, .error (failureMessage operationName cfg.maxRetries e),
       reg.set operationName (jsTruthyIncrement (reg operationName))⟩

/-- The attempt numbers at which the action was actually invoked, in
order. -/
def invocations (tr : List RetryEvent) : List Nat :=
  tr.filterMap fun ev =>
    match ev with
    | .invoke a => some a
    | _ => none

/-- The waits performed between attempts, in order. -/
def waits (tr : List RetryEvent) : List ℚ :=
  tr.filterMap fun ev =>
    match ev with
    | .wait d => some d
    | _ => none

/-- The `onRetry` callback invocations, in order. -/
def onRetryCalls (tr : List RetryEvent) : List (Nat × ℚ) :=
  tr.filterMap fun ev =>
    match ev with
    | .onRetryCall a d => some (a, d)
    | _ => none

/-! ### Helper lemmas about the trace projections -/

theorem invocations_nil : invocations [] = [] := rfl

theorem invocations_cons (ev : RetryEvent) (tr : List RetryEvent) :
    invocations (ev :: tr) =
      (match ev with | .invoke a => [a] | _ => []) ++ invocations tr := by
  cases ev <;> simp [invocations]

theorem invocations_append (tr1 tr2 : List RetryEvent) :
    invocations (tr1 ++ tr2) = invocations tr1 ++ invocations tr2 :=
  List.filterMap_append ..

theorem waits_cons (ev : RetryEvent) (tr : List RetryEvent) :
    waits (ev :: tr) = (match ev with | .wait d => [d] | _ => []) ++ waits tr := by
  cases ev <;> simp [waits]

theorem waits_append (tr1 tr2 : List RetryEvent) :
    waits (tr1 ++ tr2) = waits tr1 ++ waits tr2 :=
  List.filterMap_append ..

theorem onRetryCalls_cons (ev : RetryEvent) (tr : List RetryEvent) :
    onRetryCalls (ev :: tr) =
      (match ev with | .onRetryCall a d => [(a, d)] | _ => []) ++ onRetryCalls tr := by
  cases ev <;> simp [onRetryCalls]

theorem onRetryCalls_append (tr1 tr2 : List RetryEvent) :
    onRetryCalls (tr1 ++ tr2) = onRetryCalls tr1 ++ onRetryCalls tr2 :=
  List.filterMap_append ..

theorem invocations_onRetryEvents (cb : Option (String → Nat → ℚ → Except String Unit))
    (e : String) (a : Nat) (d : ℚ) : invocations (onRetryEvents cb e a d) = [] := by
  cases cb with
  | none => rfl
  | some f =>
      unfold onRetryEvents
      cases h : f e a d <;> simp [h, invocations]

theorem waits_onRetryEvents (cb : Option (String → Nat → ℚ → Except String Unit))
    (e : String) (a : Nat) (d : ℚ) : waits (onRetryEvents cb e a d) = [] := by
  cases cb with
  | none => rfl
  | some f =>
      unfold onRetryEvents
      cases h : f e a d <;> simp [h, waits]

theorem onRetryCalls_onRetryEvents_length
    (cb : Option (String → Nat → ℚ → Except String Unit))
    (e : String) (a : Nat) (d : ℚ) :
    (onRetryCalls (onRetryEvents cb e a d)).length ≤ 1 := by
  cases cb with
  | none => simp [onRetryEvents, onRetryCalls]
  | some f =>
      unfold onRetryEvents
      cases h : f e a d <;> simp [h, onRetryCalls]

/-! ### One-step unfolding equations for the attempt loop -/

theorem retryLoop_ok (cfg : RetryConfig) (action : Nat → Except String A)
    (a r : Nat) (v : A) (h : action a = .ok v) :
    retryLoop cfg action a r = ([.invoke a], .success v) := by
  rw [retryLoop.eq_def, h]

theorem retryLoop_deny (cfg : RetryConfig) (action : Nat → Except String A)
    (a r : Nat) (e : String) (h : action a = .error e)
    (hd : shouldRetryCheck cfg.shouldRetry e a = false) :
    retryLoop cfg action a r = ([.invoke a], .failed e) := by
  rw [retryLoop.eq_def, h]
  simp [hd]

theorem retryLoop_exhaust (cfg : RetryConfig) (action : Nat → Except String A)
    (a : Nat) (e : String) (h : action a = .error e)
    (hs : shouldRetryCheck cfg.shouldRetry e a = true) :
    retryLoop cfg action a 0 = ([.invoke a], .failed e) := by
  rw [retryLoop.eq_def, h]
  simp [hs]

theorem retryLoop_continue (cfg : RetryConfig) (action : Nat → Except String A)
    (a r : Nat) (e : String) (h : action a = .error e)
    (hs : shouldRetryCheck cfg.shouldRetry e a = true) :
    retryLoop cfg action a (r + 1) =
      (.invoke a ::
        (onRetryEvents cfg.onRetry e a
            (backoffDelay cfg.baseDelay cfg.backoffMultiplier cfg.maxDelay a) ++
          .wait (backoffDelay cfg.baseDelay cfg.backoffMultiplier cfg.maxDelay a) ::
            (retryLoop cfg action (a + 1) r).1),
       (retryLoop cfg action (a + 1) r).2) := by
  rw [retryLoop.eq_def, h]
  simp [hs]

/-! ### Characterizations of the attempt loop -/

/-- When the action fails at every attempt and the classifier always
allows retrying, the loop started at `attempt = a` with `r` further
attempts allowed invokes attempts `a, a+1, …, a+r`, waits the computed
backoff after each non-final attempt, and gives up with the last error. -/
theorem retryLoop_allFail (cfg : RetryConfig) (action : Nat → Except String A)
    (errs : Nat → String)
    (hact : ∀ n, action n = .error (errs n))
    (hsr : ∀ e n, shouldRetryCheck cfg.shouldRetry e n = true)
    (r a : Nat) :
    invocations (retryLoop cfg action a r).1 = List.range' a (r + 1) ∧
    waits (retryLoop cfg action a r).1 =
      (List.range' a r).map (backoffDelay cfg.baseDelay cfg.backoffMultiplier cfg.maxDelay) ∧
    (retryLoop cfg action a r).2 = .failed (errs (a + r)) := by
  induction r generalizing a with
  | zero =>
      rw [retryLoop_exhaust cfg action a (errs a) (hact a) (hsr (errs a) a)]
      simp [invocations, waits]
  | succ r ih =>
      have h := ih (a + 1)
      rw [retryLoop_continue cfg action a r (errs a) (hact a) (hsr (errs a) a)]
      refine ⟨?_, ?_, ?_⟩
      · rw [invocations_cons, invocations_append, invocations_onRetryEvents,
          invocations_cons, h.1, List.range'_succ]
        rfl
      · rw [waits_cons, waits_append, waits_onRetryEvents, waits_cons, h.2.1,
          List.range'_succ]
        rfl
      · rw [h.2.2]
        have : a + 1 + r = a + (r + 1) := by omega
        rw [this]

/-- When attempts `a, …, a+j-1` fail but are allowed by the classifier,
and attempt `a + j` fails with the classifier denying the retry, the loop
stops right there: attempts `a, …, a+j`, exactly `j` waits, at most `j`
`onRetry` invocations, and the outcome wraps the denied error. -/
theorem retryLoop_denial (cfg : RetryConfig) (action : Nat → Except String A)
    (errs : Nat → String) (j : Nat) :
    ∀ a r,
      (∀ k, a ≤ k → k < a + j →
        action k = .error (errs k) ∧ shouldRetryCheck cfg.shouldRetry (errs k) k = true) →
      action (a + j) = .error (errs (a + j)) →
      shouldRetryCheck cfg.shouldRetry (errs (a + j)) (a + j) = false →
      j ≤ r →
      invocations (retryLoop cfg action a r).1 = List.range' a (j + 1) ∧
      (waits (retryLoop cfg action a r).1).length = j ∧
      (onRetryCalls (retryLoop cfg action a r).1).length ≤ j ∧
      (retryLoop cfg action a r).2 = .failed (errs (a + j)) := by
  induction j with
  | zero =>
      intro a r _hpre hlast hdeny _hjr
      rw [Nat.add_zero] at hlast hdeny
      rw [retryLoop_deny cfg action a r (errs a) hlast hdeny]
      simp [invocations, waits, onRetryCalls]
  | succ j ih =>
      intro a r hpre hlast hdeny hjr
      have ha : action a = .error (errs a) ∧
          shouldRetryCheck cfg.shouldRetry (errs a) a = true :=
        hpre a (Nat.le_refl a) (by omega)
      obtain ⟨r', rfl⟩ : ∃ r', r = r' + 1 := ⟨r - 1, by omega⟩
      have hshift : a + 1 + j = a + (j + 1) := by omega
      have h := ih (a + 1) r'
        (fun k hk1 hk2 => hpre k (by omega) (by omega))
        (by rw [hshift]; exact hlast)
        (by rw [hshift]; exact hdeny)
        (by omega)
      rw [retryLoop_continue cfg action a r' (errs a) ha.1 ha.2]
      refine ⟨?_, ?_, ?_, ?_⟩
      · rw [invocations_cons, invocations_append, invocations_onRetryEvents,
          invocations_cons, h.1, List.range'_succ]
        rfl
      · rw [waits_cons, waits_append, waits_onRetryEvents, waits_cons]
        simp [h.2.1]
      · rw [onRetryCalls_cons, onRetryCalls_append, onRetryCalls_cons]
        have hcb := onRetryCalls_onRetryEvents_length cfg.onRetry (errs a) a
          (backoffDelay cfg.baseDelay cfg.backoffMultiplier cfg.maxDelay a)
        have hrest := h.2.2.1
        simp only [List.nil_append, List.length_append]
        omega
      · rw [h.2.2.2, hshift]

/-- When attempts `a, …, a+j-1` fail but are allowed by the classifier,
and attempt `a + j` succeeds with value `v`, the loop returns `v` after
invoking exactly attempts `a, …, a+j`. -/
theorem retryLoop_success (cfg : RetryConfig) (action : Nat → Except String A)
    (errs : Nat → String) (v : A) (j : Nat) :
    ∀ a r,
      (∀ k, a ≤ k → k < a + j →
        action k = .error (errs k) ∧ shouldRetryCheck cfg.shouldRetry (errs k) k = true) →
      action (a + j) = .ok v →
      j ≤ r →
      invocations (retryLoop cfg action a r).1 = List.range' a (j + 1) ∧
      (retryLoop cfg action a r).2 = .success v := by
  induction j with
  | zero =>
      intro a r _hpre hlast _hjr
      rw [Nat.add_zero] at hlast
      rw [retryLoop_ok cfg action a r v hlast]
      simp [invocations]
  | succ j ih =>
      intro a r hpre hlast hjr
      have ha : action a = .error (errs a) ∧
          shouldRetryCheck cfg.shouldRetry (errs a) a = true :=
        hpre a (Nat.le_refl a) (by omega)
      obtain ⟨r', rfl⟩ : ∃ r', r = r' + 1 := ⟨r - 1, by omega⟩
      have hshift : a + 1 + j = a + (j + 1) := by omega
      have h := ih (a + 1) r'
        (fun k hk1 hk2 => hpre k (by omega) (by omega))
        (by rw [hshift]; exact hlast)
        (by omega)
      rw [retryLoop_continue cfg action a r' (errs a) ha.1 ha.2]
      refine ⟨?_, ?_⟩
      · rw [invocations_cons, invocations_append, invocations_onRetryEvents,
          invocations_cons, h.1, List.range'_succ]
        rfl
      · exact h.2

/-- The behaviour of the attempt loop — outcome, invocations and waits —
does not depend on the `onRetry` callback: its own failures are swallowed
by the `try/catch` around it. -/
theorem retryLoop_onRetry_independent (cfg : RetryConfig)
    (action : Nat → Except String A)
    (cb1 cb2 : Option (String → Nat → ℚ → Except String Unit)) (r : Nat) :
    ∀ a,
      (retryLoop { cfg with onRetry := cb1 } action a r).2 =
        (retryLoop { cfg with onRetry := cb2 } action a r).2 ∧
      invocations (retryLoop { cfg with onRetry := cb1 } action a r).1 =
        invocations (retryLoop { cfg with onRetry := cb2 } action a r).1 ∧
      waits (retryLoop { cfg with onRetry := cb1 } action a r).1 =
        waits (retryLoop { cfg with onRetry := cb2 } action a r).1 := by
  induction r with
  | zero =>
      intro a
      cases hact : action a with
      | ok v =>
          rw [retryLoop_ok { cfg with onRetry := cb1 } action a 0 v hact,
            retryLoop_ok { cfg with onRetry := cb2 } action a 0 v hact]
          exact ⟨rfl, rfl, rfl⟩
      | error e =>
          cases hsr : shouldRetryCheck cfg.shouldRetry e a with
          | false =>
              rw [retryLoop_deny { cfg with onRetry := cb1 } action a 0 e hact hsr,
                retryLoop_deny { cfg with onRetry := cb2 } action a 0 e hact hsr]
              exact ⟨rfl, rfl, rfl⟩
          | true =>
              rw [retryLoop_exhaust { cfg with onRetry := cb1 } action a e hact hsr,
                retryLoop_exhaust { cfg with onRetry := cb2 } action a e hact hsr]
              exact ⟨rfl, rfl, rfl⟩
  | succ r ih =>
      intro a
      cases hact : action a with
      | ok v =>
          rw [retryLoop_ok { cfg with onRetry := cb1 } action a (r + 1) v hact,
            retryLoop_ok { cfg with onRetry := cb2 } action a (r + 1) v hact]
          exact ⟨rfl, rfl, rfl⟩
      | error e =>
          cases hsr : shouldRetryCheck cfg.shouldRetry e a with
          | false =>
              rw [retryLoop_deny { cfg with onRetry := cb1 } action a (r + 1) e hact hsr,
                retryLoop_deny { cfg with onRetry := cb2 } action a (r + 1) e hact hsr]
              exact ⟨rfl, rfl, rfl⟩
          | true =>
              have h := ih (a + 1)
              rw [retryLoop_continue { cfg with onRetry := cb1 } action a r e hact hsr,
                retryLoop_continue { cfg with onRetry := cb2 } action a r e hact hsr]
              refine ⟨h.1, ?_, ?_⟩
              · rw [invocations_cons, invocations_append, invocations_onRetryEvents,
                  invocations_cons, invocations_cons, invocations_append,
                  invocations_onRetryEvents, invocations_cons, h.2.1]
              · rw [waits_cons, waits_append, waits_onRetryEvents, waits_cons,
                  waits_cons, waits_append, waits_onRetryEvents, waits_cons, h.2.2]

/-! ### Characterizations of the circuit breaker -/

/-- A call while the circuit is open and the reset timeout has not yet
elapsed: fast rejection, circuit untouched, action outcome ignored. -/
theorem cbStep_opened_reject (t : Nat) (rt now : Int) (c : CircuitState)
    (outcome : Except String A)
    (h : c.state = .opened) (ht : now - c.lastFailureTime < rt) :
    cbStep t rt now c outcome = (.circuitOpen, c) := by
  simp [cbStep, h, ht]

/-- A call whose action succeeds, whenever the circuit does not reject:
the circuit closes with `failureCount = 0` and a fresh success time. -/
theorem cbStep_ok_allowed (t : Nat) (rt now : Int) (c : CircuitState) (v : A)
    (h : ¬(c.state = .opened ∧ now - c.lastFailureTime < rt)) :
    cbStep t rt now c (.ok v) =
      (.ok v,
       { state := .closed, failureCount := 0,
         lastFailureTime := c.lastFailureTime, lastSuccessTime := now }) := by
  rw [cbStep, if_neg h]
  cases hs : c.state <;> simp [hs]

/-- A call whose action fails while the circuit is not open (closed or
half-open): the failure count goes up, the failure time is refreshed, and
the circuit opens exactly when the new count reaches the threshold. -/
theorem cbStep_fail_notOpened (t : Nat) (rt now : Int) (c : CircuitState) (e : String)
    (h : c.state ≠ .opened) :
    cbStep t rt now c (.error e : Except String A) =
      (.err e,
       { state := if t ≤ c.failureCount + 1 then .opened else c.state,
         failureCount := c.failureCount + 1,
         lastFailureTime := now, lastSuccessTime := c.lastSuccessTime }) := by
  rw [cbStep, if_neg (by simp [h])]
  rw [if_neg h]
  by_cases hth : t ≤ c.failureCount + 1 <;> simp [hth]

/-- Consecutive failing calls on a closed circuit, as long as the
threshold bounds their number: the failures accumulate and the circuit
opens exactly when the count reaches the threshold. -/
theorem cbRun_closed_fails (t : Nat) (rt : Int) :
    ∀ (steps : List (Int × String)) (c : CircuitState),
      c.state = .closed →
      c.failureCount + steps.length ≤ t →
      (cbRun t rt (steps.map fun p => (p.1, (.error p.2 : Except String A))) c).failureCount =
          c.failureCount + steps.length ∧
      (cbRun t rt (steps.map fun p => (p.1, (.error p.2 : Except String A))) c).state =
          (if t ≤ c.failureCount + steps.length ∧ steps ≠ [] then .opened else .closed) := by
  intro steps
  induction steps with
  | nil =>
      intro c hclosed _hb
      simp [cbRun, hclosed]
  | cons p rest ih =>
      intro c hclosed hb
      have hstep := cbStep_fail_notOpened (A := A) t rt p.1 c p.2 (by rw [hclosed]; intro hc; cases hc)
      simp only [List.map_cons, cbRun, hstep]
      cases rest with
      | nil =>
          simp only [List.map_nil, cbRun, List.length_cons, List.length_nil, Nat.zero_add]
          refine ⟨by simp, ?_⟩
          by_cases hth : t ≤ c.failureCount + 1
          · simp [hth]
          · simp [hth, hclosed]
      | cons q rest' =>
          have hlt : ¬ t ≤ c.failureCount + 1 := by
            simp only [List.length_cons] at hb
            omega
          have h := ih
            ⟨if t ≤ c.failureCount + 1 then CBState.opened else c.state,
              c.failureCount + 1, p.1, c.lastSuccessTime⟩
            (by simp [hlt, hclosed])
            (by simp only [List.length_cons] at hb ⊢; omega)
          refine ⟨?_, ?_⟩
          · rw [h.1]
            simp only [List.length_cons]
            omega
          · rw [h.2]
            simp only [List.length_cons, ne_eq, List.cons_ne_nil, not_false_eq_true, and_true]
            have harith : c.failureCount + 1 + (rest'.length + 1) =
                c.failureCount + (rest'.length + 1 + 1) := by omega
            rw [harith]

/-! ### Unfolding `executeWithRetry` by the loop's outcome -/

theorem executeWithRetry_of_success (op : String) (action : Nat → Except String A)
    (cfg : RetryConfig) (reg : Registry) (v : A)
    (h : (retryLoop cfg action 1 cfg.maxRetries).2 = .success v) :
    executeWithRetry op action cfg reg =
      ⟨(retryLoop cfg action 1 cfg.maxRetries).1, .ok v, reg.del op⟩ := by
  simp only [executeWithRetry, h]

theorem executeWithRetry_of_failed (op : String) (action : Nat → Except String A)
    (cfg : RetryConfig) (reg : Registry) (e : String)
    (h : (retryLoop cfg action 1 cfg.maxRetries).2 = .failed e) :
    executeWithRetry op action cfg reg =
      ⟨(retryLoop cfg action 1 cfg.maxRetries).1,
       .error (failureMessage op cfg.maxRetries e),
       reg.set op (jsTruthyIncrement (reg op))⟩ := by
  simp only [executeWithRetry, h]

/-! ### Claim C1 -/

/-- Claim C1, counterexample: the claim quantifies over EVERY config with
`maxRetries = m`, but a config whose `shouldRetry` predicate denies the
first error makes `executeWithRetry` stop after a single invocation, not
`m + 1 = 3` of them: with `maxRetries = 2`, an always-failing action and
`shouldRetry = fun _ _ => false`, the invocation list is `[1]`, not
`[1, 2, 3]`. -/
theorem c1_counterexample :
    invocations (executeWithRetry "op" (fun _ => (Except.error "boom" : Except String Unit))
        ⟨2, 500, 2, 5000, some (fun _ _ => false), none⟩ emptyRegistry).trace = [1] ∧
    ([1] : List Nat) ≠ [1, 2, 3] := by
  constructor
  · rfl
  · decide

/-- Claim C1 (amended: the config's `shouldRetry` predicate, when
supplied, must never deny — claim C4 covers the denying case): for every
action failing on every invocation and every such config with
`maxRetries = m`, `executeWithRetry` invokes the action exactly `m + 1`
times, sequentially with attempt numbers `1 .. m+1` (the invocation list
is `[1, …, m+1]` in program order), and then raises the failure built
from the last error's message. -/
theorem c1_all_attempts_when_retry_allowed
    (op : String) (A : Type) (action : Nat → Except String A) (errs : Nat → String)
    (cfg : RetryConfig) (reg : Registry)
    (hact : ∀ n, action n = .error (errs n))
    (hsr : ∀ e n, shouldRetryCheck cfg.shouldRetry e n = true) :
    invocations (executeWithRetry op action cfg reg).trace =
      List.range' 1 (cfg.maxRetries + 1) ∧
    (executeWithRetry op action cfg reg).result =
      .error (failureMessage op cfg.maxRetries (errs (cfg.maxRetries + 1))) := by
  have h := retryLoop_allFail cfg action errs hact hsr cfg.maxRetries 1
  rw [Nat.add_comm 1 cfg.maxRetries] at h
  rw [executeWithRetry_of_failed op action cfg reg (errs (cfg.maxRetries + 1)) h.2.2]
  exact ⟨h.1, rfl⟩

/-- Claim C1 witness: `maxRetries = 2`, always-failing action, no
classifier — exactly the invocations `1, 2, 3` and the wrapped 3rd
error. -/
theorem c1_witness :
    invocations (executeWithRetry "op" (fun _ => (Except.error "boom" : Except String Unit))
        ⟨2, 500, 2, 5000, none, none⟩ emptyRegistry).trace = List.range' 1 (2 + 1) ∧
    (executeWithRetry "op" (fun _ => (Except.error "boom" : Except String Unit))
        ⟨2, 500, 2, 5000, none, none⟩ emptyRegistry).result =
      Except.error (failureMessage "op" 2 "boom") :=
  c1_all_attempts_when_retry_allowed "op" Unit (fun _ => .error "boom") (fun _ => "boom")
    ⟨2, 500, 2, 5000, none, none⟩ emptyRegistry (fun _ => rfl) (fun _ _ => rfl)

/-! ### Claim C4 -/

/-- Claim C4: with a `shouldRetry` predicate supplied, if attempts
`1 .. n-1` fail with the predicate allowing each retry and attempt `n`
(within the allowed range) fails with the predicate denying, the loop
stops immediately after attempt `n`: the invocations are exactly
`1 .. n`, only the `n - 1` earlier waits happened, at most `n - 1`
`onRetry` invocations happened, and the raised failure wraps attempt
`n`'s error.  With `n = 1` this is: denial on attempt 1 means exactly one
invocation regardless of `maxRetries`. -/
theorem c4_should_retry_denial_stops
    (op : String) (A : Type) (action : Nat → Except String A) (errs : Nat → String)
    (sr : String → Nat → Bool) (cfg : RetryConfig) (reg : Registry) (n : Nat)
    (hcfg : cfg.shouldRetry = some sr)
    (h1 : 1 ≤ n) (hn : n ≤ cfg.maxRetries + 1)
    (hpre : ∀ k, 1 ≤ k → k < n → action k = .error (errs k) ∧ sr (errs k) k = true)
    (hlast : action n = .error (errs n))
    (hdeny : sr (errs n) n = false) :
    invocations (executeWithRetry op action cfg reg).trace = List.range' 1 n ∧
    (waits (executeWithRetry op action cfg reg).trace).length = n - 1 ∧
    (onRetryCalls (executeWithRetry op action cfg reg).trace).length ≤ n - 1 ∧
    (executeWithRetry op action cfg reg).result =
      .error (failureMessage op cfg.maxRetries (errs n)) := by
  have hsrc : ∀ e k, shouldRetryCheck cfg.shouldRetry e k = sr e k := by
    intro e k
    rw [hcfg]
    rfl
  have hj : 1 + (n - 1) = n := by omega
  have h := retryLoop_denial cfg action errs (n - 1) 1 cfg.maxRetries
    (fun k hk1 hk2 => ⟨(hpre k hk1 (by omega)).1,
      (hsrc (errs k) k).trans (hpre k hk1 (by omega)).2⟩)
    (by rw [hj]; exact hlast)
    (by rw [hj, hsrc]; exact hdeny)
    (by omega)
  rw [hj] at h
  rw [executeWithRetry_of_failed op action cfg reg (errs n) h.2.2.2]
  have hn1 : n - 1 + 1 = n := by omega
  rw [hn1] at h
  exact ⟨h.1, h.2.1, h.2.2.1, rfl⟩

/-- Claim C4 witness: denial on the very first attempt with
`maxRetries = 3` — one invocation, no waits, no `onRetry` calls. -/
theorem c4_witness :
    invocations (executeWithRetry "op" (fun _ => (Except.error "boom" : Except String Unit))
        ⟨3, 1000, 2, 10000, some (fun _ _ => false), none⟩ emptyRegistry).trace =
      List.range' 1 1 ∧
    (waits (executeWithRetry "op" (fun _ => (Except.error "boom" : Except String Unit))
        ⟨3, 1000, 2, 10000, some (fun _ _ => false), none⟩ emptyRegistry).trace).length = 1 - 1 ∧
    (onRetryCalls (executeWithRetry "op" (fun _ => (Except.error "boom" : Except String Unit))
        ⟨3, 1000, 2, 10000, some (fun _ _ => false), none⟩ emptyRegistry).trace).length ≤ 1 - 1 ∧
    (executeWithRetry "op" (fun _ => (Except.error "boom" : Except String Unit))
        ⟨3, 1000, 2, 10000, some (fun _ _ => false), none⟩ emptyRegistry).result =
      Except.error (failureMessage "op" 3 "boom") :=
  c4_should_retry_denial_stops "op" Unit (fun _ => .error "boom") (fun _ => "boom")
    (fun _ _ => false) ⟨3, 1000, 2, 10000, some (fun _ _ => false), none⟩ emptyRegistry 1
    rfl (by decide) (by decide)
    (fun k hk1 hk2 => absurd (Nat.lt_of_lt_of_le hk2 hk1) (Nat.lt_irrefl k))
    rfl rfl

/-! ### Claim C2 -/

/-- Claim C2, counterexample: the claim quantifies over EVERY `maxDelay`,
but `Math.min(baseDelay * multiplier^(attempt-1), maxDelay)` with a
negative `maxDelay` is negative even with `baseDelay = 500 ≥ 0` and
`multiplier = 3/2 > 0`: with `maxDelay = -1` the wait actually recorded
before attempt 2 is `-1 < 0`. -/
theorem c2_counterexample :
    waits (executeWithRetry "op" (fun _ => (Except.error "boom" : Except String Unit))
        ⟨1, 500, 3/2, -1, none, none⟩ emptyRegistry).trace = [-1] ∧
    (-1 : ℚ) < 0 ∧ (0 : ℚ) ≤ 500 ∧ (0 : ℚ) < 3/2 := by
  refine ⟨?_, by norm_num, by norm_num, by norm_num⟩
  have h := retryLoop_allFail (A := Unit) ⟨1, 500, 3/2, -1, none, none⟩
    (fun _ => .error "boom") (fun _ => "boom") (fun _ => rfl) (fun _ _ => rfl) 1 1
  rw [executeWithRetry_of_failed "op" (fun _ => .error "boom") ⟨1, 500, 3/2, -1, none, none⟩
    emptyRegistry "boom" h.2.2]
  rw [h.2.1]
  norm_num [backoffDelay]

/-- Claim C2 (amended: `maxDelay` must additionally be non-negative for
the non-negativity conclusion; the source caps with `Math.min`, so a
negative cap is returned as-is): the backoff before the attempt after
attempt `n` equals `min(baseDelay × multiplier^(n-1), maxDelay)` — the
waits of an always-failing, always-retrying run are exactly the map of
this formula over attempts `1 .. maxRetries` — the value is never
negative when `baseDelay ≥ 0`, `multiplier > 0` and `maxDelay ≥ 0` (and
is a well-defined rational, never NaN, by construction), and the claim's
examples hold: `delay(1) = 500`, `delay(5) = 2531.25 = 10125/4`,
`delay(20) = 5000` for base 500, multiplier 1.5, cap 5000. -/
theorem c2_backoff_delay_formula
    (base mult cap : ℚ) (attempt : Nat)
    (op : String) (A : Type) (action : Nat → Except String A) (errs : Nat → String)
    (cfg : RetryConfig) (reg : Registry)
    (hb : 0 ≤ base) (hm : 0 < mult) (hc : 0 ≤ cap) (_hatt : 1 ≤ attempt)
    (hact : ∀ n, action n = .error (errs n))
    (hsr : ∀ e n, shouldRetryCheck cfg.shouldRetry e n = true) :
    backoffDelay base mult cap attempt = min (base * mult ^ (attempt - 1)) cap ∧
    0 ≤ backoffDelay base mult cap attempt ∧
    waits (executeWithRetry op action cfg reg).trace =
      (List.range' 1 cfg.maxRetries).map
        (backoffDelay cfg.baseDelay cfg.backoffMultiplier cfg.maxDelay) ∧
    backoffDelay 500 (3/2) 5000 1 = 500 ∧
    backoffDelay 500 (3/2) 5000 5 = 10125 / 4 ∧
    backoffDelay 500 (3/2) 5000 20 = 5000 := by
  have h := retryLoop_allFail cfg action errs hact hsr cfg.maxRetries 1
  refine ⟨rfl, le_min (mul_nonneg hb (pow_nonneg hm.le _)) hc, ?_, ?_, ?_, ?_⟩
  · rw [executeWithRetry_of_failed op action cfg reg (errs (1 + cfg.maxRetries)) h.2.2]
    exact h.2.1
  · norm_num [backoffDelay]
  · rw [backoffDelay]
    rw [min_eq_left (by norm_num)]
    norm_num
  · rw [backoffDelay]
    rw [min_eq_right (by norm_num)]

/-- Claim C2 witness: concrete instance with base 500, multiplier 2,
cap 5000, attempt 1, an always-failing action and `maxRetries = 1`. -/
theorem c2_witness :
    backoffDelay 500 2 5000 1 = min ((500 : ℚ) * 2 ^ (1 - 1)) 5000 ∧
    (0 : ℚ) ≤ backoffDelay 500 2 5000 1 ∧
    waits (executeWithRetry "op" (fun _ => (Except.error "boom" : Except String Unit))
        ⟨1, 500, 2, 5000, none, none⟩ emptyRegistry).trace =
      (List.range' 1 1).map (backoffDelay 500 2 5000) ∧
    backoffDelay 500 (3/2) 5000 1 = 500 ∧
    backoffDelay 500 (3/2) 5000 5 = 10125 / 4 ∧
    backoffDelay 500 (3/2) 5000 20 = 5000 :=
  c2_backoff_delay_formula 500 2 5000 1 "op" Unit (fun _ => .error "boom") (fun _ => "boom")
    ⟨1, 500, 2, 5000, none, none⟩ emptyRegistry
    (by decide) (by decide) (by decide) (by decide) (fun _ => rfl) (fun _ _ => rfl)

/-! ### Claim C5 -/

/-- Claim C5, counterexample: the raised failure does NOT carry the
number of attempts actually made — the source interpolates
`maxRetries + 1` unconditionally.  With `maxRetries = 3` and a
`shouldRetry` that denies on attempt 1, exactly 1 invocation happens, yet
the raised message is the one built from the count 4 and differs from the
message built from the actual count 1. -/
theorem c5_counterexample :
    (invocations (executeWithRetry "op" (fun _ => (Except.error "boom" : Except String Unit))
        ⟨3, 1000, 2, 10000, some (fun _ _ => false), none⟩ emptyRegistry).trace).length = 1 ∧
    (executeWithRetry "op" (fun _ => (Except.error "boom" : Except String Unit))
        ⟨3, 1000, 2, 10000, some (fun _ _ => false), none⟩ emptyRegistry).result =
      Except.error (claimedFailureMessage "op" 4 "boom") ∧
    claimedFailureMessage "op" 4 "boom" ≠ claimedFailureMessage "op" 1 "boom" := by
  refine ⟨rfl, rfl, ?_⟩
  decide

/-- Claim C5 (amended: the raised failure carries the operation name, the
CONFIGURED total attempt count `maxRetries + 1` — which equals the
attempts actually made only when the loop runs to exhaustion, not when
`shouldRetry` stops it early — and the last underlying error's message;
and the registry's failure entry for the operation becomes
`(previous || 0) + 1`, so an existing integer counter is incremented by 1
and never reset, while all other keys are untouched). -/
theorem c5_final_failure_message_and_counter
    (op : String) (A : Type) (action : Nat → Except String A)
    (cfg : RetryConfig) (reg : Registry) (e : String)
    (h : (retryLoop cfg action 1 cfg.maxRetries).2 = .failed e) :
    (executeWithRetry op action cfg reg).result =
      .error (claimedFailureMessage op (cfg.maxRetries + 1) e) ∧
    (executeWithRetry op action cfg reg).registry op =
      some (jsTruthyIncrement (reg op)) ∧
    (∀ n, reg op = some (.counter n) →
      (executeWithRetry op action cfg reg).registry op = some (.counter (n + 1))) ∧
    (reg op = none →
      (executeWithRetry op action cfg reg).registry op = some (.counter 1)) ∧
    (∀ k, k ≠ op → (executeWithRetry op action cfg reg).registry k = reg k) := by
  rw [executeWithRetry_of_failed op action cfg reg e h]
  refine ⟨rfl, ?_, ?_, ?_, ?_⟩
  · simp [Registry.set]
  · intro n hn
    simp [Registry.set, hn, jsTruthyIncrement]
  · intro hn
    simp [Registry.set, hn, jsTruthyIncrement]
  · intro k hk
    simp [Registry.set, hk]

/-- Claim C5 witness: one-attempt failing run against a registry whose
counter for `"op"` is 4 — the message reports `0 + 1 = 1` attempts and
the counter becomes 5; an unrelated key is untouched. -/
theorem c5_witness :
    (executeWithRetry "op" (fun _ => (Except.error "boom" : Except String Unit))
        ⟨0, 1000, 2, 10000, none, none⟩
        (fun k => if k = "op" then some (.counter 4) else none)).result =
      Except.error (claimedFailureMessage "op" (0 + 1) "boom") ∧
    (executeWithRetry "op" (fun _ => (Except.error "boom" : Except String Unit))
        ⟨0, 1000, 2, 10000, none, none⟩
        (fun k => if k = "op" then some (.counter 4) else none)).registry "op" =
      some (.counter (4 + 1)) ∧
    (executeWithRetry "op" (fun _ => (Except.error "boom" : Except String Unit))
        ⟨0, 1000, 2, 10000, none, none⟩
        (fun k => if k = "op" then some (.counter 4) else none)).registry "other" =
      (fun k => if k = "op" then some (RegistryEntry.counter 4) else none) "other" := by
  have h := c5_final_failure_message_and_counter "op" Unit (fun _ => .error "boom")
    ⟨0, 1000, 2, 10000, none, none⟩
    (fun k => if k = "op" then some (.counter 4) else none) "boom" rfl
  exact ⟨h.1, h.2.2.1 4 rfl, h.2.2.2.2 "other" (by decide)⟩

/-! ### Claim C9 -/

/-- Claim C9: for `baseDelay > 0`, `multiplier > 1` and
`maxDelay ≥ baseDelay`, the backoff sequence is monotonically
non-decreasing in the attempt number. -/
theorem c9_delay_monotone (base mult cap : ℚ) (n : Nat)
    (hb : 0 < base) (hm : 1 < mult) (_hcap : base ≤ cap) (hn : 1 ≤ n) :
    backoffDelay base mult cap n ≤ backoffDelay base mult cap (n + 1) := by
  unfold backoffDelay
  refine min_le_min ?_ le_rfl
  have hpow : mult ^ (n - 1) ≤ mult ^ (n + 1 - 1) :=
    pow_le_pow_right₀ hm.le (by omega)
  exact mul_le_mul_of_nonneg_left hpow hb.le

/-- Claim C9 witness: base 500, multiplier 2, cap 5000, step from attempt
1 to attempt 2. -/
theorem c9_witness :
    backoffDelay 500 2 5000 1 ≤ backoffDelay 500 2 5000 (1 + 1) :=
  c9_delay_monotone 500 2 5000 1 (by decide) (by decide) (by decide) (by decide)

/-! ### Claim C7 -/

/-- Claim C7: when `executeWithRetry` succeeds at attempt `n` (after
`n - 1` allowed failures), it returns the action's value with no further
invocations (the invocation list is exactly `1 .. n`), deletes the
operation's failure-counter entry from the registry, and leaves every
other key — in particular every `circuit_`-prefixed key of another
operation's circuit — unchanged. -/
theorem c7_success_clears_counter_frame
    (op : String) (A : Type) (action : Nat → Except String A) (errs : Nat → String)
    (v : A) (cfg : RetryConfig) (reg : Registry) (n : Nat)
    (h1 : 1 ≤ n) (hn : n ≤ cfg.maxRetries + 1)
    (hpre : ∀ k, 1 ≤ k → k < n →
      action k = .error (errs k) ∧ shouldRetryCheck cfg.shouldRetry (errs k) k = true)
    (hsucc : action n = .ok v) :
    (executeWithRetry op action cfg reg).result = .ok v ∧
    invocations (executeWithRetry op action cfg reg).trace = List.range' 1 n ∧
    (executeWithRetry op action cfg reg).registry op = none ∧
    (∀ k, k ≠ op → (executeWithRetry op action cfg reg).registry k = reg k) := by
  have hj : 1 + (n - 1) = n := by omega
  have h := retryLoop_success cfg action errs v (n - 1) 1 cfg.maxRetries
    (fun k hk1 hk2 => hpre k hk1 (by omega))
    (by rw [hj]; exact hsucc)
    (by omega)
  rw [executeWithRetry_of_success op action cfg reg v h.2]
  have hn1 : n - 1 + 1 = n := by omega
  rw [hn1] at h
  refine ⟨rfl, h.1, ?_, ?_⟩
  · simp [Registry.del]
  · intro k hk
    simp [Registry.del, hk]

/-- Claim C7 witness: success on the first attempt for `"op"` against a
registry holding a counter for `"op"` and a circuit entry for another
operation — the counter entry is deleted, the circuit entry survives. -/
theorem c7_witness :
    (executeWithRetry "op" (fun _ => (Except.ok () : Except String Unit))
        ⟨3, 1000, 2, 10000, none, none⟩
        (fun k => if k = "op" then some (.counter 2)
          else if k = "circuit_other" then some (.circuit (freshCircuit 0)) else none)).result =
      Except.ok () ∧
    invocations (executeWithRetry "op" (fun _ => (Except.ok () : Except String Unit))
        ⟨3, 1000, 2, 10000, none, none⟩
        (fun k => if k = "op" then some (.counter 2)
          else if k = "circuit_other" then some (.circuit (freshCircuit 0)) else none)).trace =
      List.range' 1 1 ∧
    (executeWithRetry "op" (fun _ => (Except.ok () : Except String Unit))
        ⟨3, 1000, 2, 10000, none, none⟩
        (fun k => if k = "op" then some (.counter 2)
          else if k = "circuit_other" then some (.circuit (freshCircuit 0)) else none)).registry
      "op" = none ∧
    (executeWithRetry "op" (fun _ => (Except.ok () : Except String Unit))
        ⟨3, 1000, 2, 10000, none, none⟩
        (fun k => if k = "op" then some (.counter 2)
          else if k = "circuit_other" then some (.circuit (freshCircuit 0)) else none)).registry
      "circuit_other" =
      (fun k => if k = "op" then some (RegistryEntry.counter 2)
        else if k = "circuit_other" then some (RegistryEntry.circuit (freshCircuit 0))
        else none) "circuit_other" := by
  have h := c7_success_clears_counter_frame "op" Unit (fun _ => .ok ()) (fun _ => "")
    () ⟨3, 1000, 2, 10000, none, none⟩
    (fun k => if k = "op" then some (.counter 2)
      else if k = "circuit_other" then some (.circuit (freshCircuit 0)) else none)
    1 (by decide) (by decide)
    (fun k hk1 hk2 => absurd (Nat.lt_of_lt_of_le hk2 hk1) (Nat.lt_irrefl k))
    rfl
  exact ⟨h.1, h.2.1, h.2.2.1, h.2.2.2 "circuit_other" (by decide)⟩

/-! ### Claim C8 -/

/-- Claim C8: the `onRetry` callback's own failures are swallowed by the
`try/catch` around it (logged as an `onRetryFailed` trace event) and
never propagate — the run's result, final registry, invocations and
waits are identical for ANY two choices of the callback, in particular
for a throwing callback versus a succeeding one. -/
theorem c8_onretry_failures_never_propagate
    (op : String) (A : Type) (action : Nat → Except String A) (cfg : RetryConfig)
    (cb1 cb2 : Option (String → Nat → ℚ → Except String Unit)) (reg : Registry) :
    (executeWithRetry op action { cfg with onRetry := cb1 } reg).result =
      (executeWithRetry op action { cfg with onRetry := cb2 } reg).result ∧
    (executeWithRetry op action { cfg with onRetry := cb1 } reg).registry =
      (executeWithRetry op action { cfg with onRetry := cb2 } reg).registry ∧
    invocations (executeWithRetry op action { cfg with onRetry := cb1 } reg).trace =
      invocations (executeWithRetry op action { cfg with onRetry := cb2 } reg).trace ∧
    waits (executeWithRetry op action { cfg with onRetry := cb1 } reg).trace =
      waits (executeWithRetry op action { cfg with onRetry := cb2 } reg).trace := by
  have h := retryLoop_onRetry_independent cfg action cb1 cb2 cfg.maxRetries 1
  cases hout : (retryLoop { cfg with onRetry := cb1 } action 1 cfg.maxRetries).2 with
  | success v =>
      have hout2 : (retryLoop { cfg with onRetry := cb2 } action 1 cfg.maxRetries).2 =
          .success v := by
        rw [← h.1]
        exact hout
      rw [executeWithRetry_of_success op action { cfg with onRetry := cb1 } reg v hout,
        executeWithRetry_of_success op action { cfg with onRetry := cb2 } reg v hout2]
      exact ⟨rfl, rfl, h.2.1, h.2.2⟩
  | failed e =>
      have hout2 : (retryLoop { cfg with onRetry := cb2 } action 1 cfg.maxRetries).2 =
          .failed e := by
        rw [← h.1]
        exact hout
      rw [executeWithRetry_of_failed op action { cfg with onRetry := cb1 } reg e hout,
        executeWithRetry_of_failed op action { cfg with onRetry := cb2 } reg e hout2]
      exact ⟨rfl, rfl, h.2.1, h.2.2⟩

/-! ### Claim C3 -/

/-- Claim C3: starting from a fresh circuit, `t ≥ 1` consecutive failing
calls (any timestamps, any error messages) leave the circuit Open with
`failureCount = t`; any further call strictly within `resetTimeout` of
the circuit's last failure time is rejected with CircuitOpen, the action
outcome being ignored and the circuit left unchanged; and once at least
`resetTimeout` has elapsed, a call is allowed (half-open) and, on
success, closes the circuit with `failureCount = 0`, refreshing only the
success time. -/
theorem c3_circuit_opens_rejects_and_recloses
    (t : Nat) (rt : Int) (steps : List (Int × String)) (now0 : Int) (A : Type)
    (ht : 1 ≤ t) (hlen : steps.length = t) :
    (cbRun t rt (steps.map fun p => (p.1, (.error p.2 : Except String A)))
        (freshCircuit now0)).state = .opened ∧
    (cbRun t rt (steps.map fun p => (p.1, (.error p.2 : Except String A)))
        (freshCircuit now0)).failureCount = t ∧
    (∀ (now : Int) (outcome : Except String A),
      now - (cbRun t rt (steps.map fun p => (p.1, (.error p.2 : Except String A)))
          (freshCircuit now0)).lastFailureTime < rt →
      cbStep t rt now
          (cbRun t rt (steps.map fun p => (p.1, (.error p.2 : Except String A)))
            (freshCircuit now0)) outcome =
        (.circuitOpen,
         cbRun t rt (steps.map fun p => (p.1, (.error p.2 : Except String A)))
           (freshCircuit now0))) ∧
    (∀ (now : Int) (v : A),
      rt ≤ now - (cbRun t rt (steps.map fun p => (p.1, (.error p.2 : Except String A)))
          (freshCircuit now0)).lastFailureTime →
      cbStep t rt now
          (cbRun t rt (steps.map fun p => (p.1, (.error p.2 : Except String A)))
            (freshCircuit now0)) (.ok v) =
        (.ok v,
         { state := .closed, failureCount := 0,
           lastFailureTime :=
             (cbRun t rt (steps.map fun p => (p.1, (.error p.2 : Except String A)))
               (freshCircuit now0)).lastFailureTime,
           lastSuccessTime := now })) := by
  have hne : steps ≠ [] := by
    intro hnil
    rw [hnil] at hlen
    simp at hlen
    omega
  have h := cbRun_closed_fails (A := A) t rt steps (freshCircuit now0) rfl
    (by simp [freshCircuit, hlen])
  have hstate : (cbRun t rt (steps.map fun p => (p.1, (.error p.2 : Except String A)))
      (freshCircuit now0)).state = .opened := by
    rw [h.2]
    simp [freshCircuit, hlen, hne]
  refine ⟨hstate, ?_, ?_, ?_⟩
  · rw [h.1]
    simp [freshCircuit, hlen]
  · intro now outcome hlt
    exact cbStep_opened_reject t rt now _ outcome hstate hlt
  · intro now v hge
    refine cbStep_ok_allowed t rt now _ v ?_
    intro hcontra
    omega

/-- Claim C3 witness: threshold 5, reset timeout 30000, five failing
calls at times 1000..5000 — the sixth call at 6000 is rejected with the
circuit unchanged; a success at 99999 recloses with count 0. -/
theorem c3_witness :
    (cbRun 5 30000 ([(1000, "e1"), (2000, "e2"), (3000, "e3"), (4000, "e4"),
        (5000, "e5")].map fun p => (p.1, (.error p.2 : Except String Unit)))
      (freshCircuit 0)).state = CBState.opened ∧
    (cbRun 5 30000 ([(1000, "e1"), (2000, "e2"), (3000, "e3"), (4000, "e4"),
        (5000, "e5")].map fun p => (p.1, (.error p.2 : Except String Unit)))
      (freshCircuit 0)).failureCount = 5 ∧
    cbStep 5 30000 6000
      (cbRun 5 30000 ([(1000, "e1"), (2000, "e2"), (3000, "e3"), (4000, "e4"),
          (5000, "e5")].map fun p => (p.1, (.error p.2 : Except String Unit)))
        (freshCircuit 0)) (.error "x" : Except String Unit) =
      (.circuitOpen,
       cbRun 5 30000 ([(1000, "e1"), (2000, "e2"), (3000, "e3"), (4000, "e4"),
           (5000, "e5")].map fun p => (p.1, (.error p.2 : Except String Unit)))
         (freshCircuit 0)) ∧
    cbStep 5 30000 99999
      (cbRun 5 30000 ([(1000, "e1"), (2000, "e2"), (3000, "e3"), (4000, "e4"),
          (5000, "e5")].map fun p => (p.1, (.error p.2 : Except String Unit)))
        (freshCircuit 0)) (.ok () : Except String Unit) =
      (.ok (),
       { state := .closed, failureCount := 0,
         lastFailureTime :=
           (cbRun 5 30000 ([(1000, "e1"), (2000, "e2"), (3000, "e3"), (4000, "e4"),
               (5000, "e5")].map fun p => (p.1, (.error p.2 : Except String Unit)))
             (freshCircuit 0)).lastFailureTime,
         lastSuccessTime := 99999 }) := by
  have h := c3_circuit_opens_rejects_and_recloses 5 30000
    [(1000, "e1"), (2000, "e2"), (3000, "e3"), (4000, "e4"), (5000, "e5")] 0 Unit
    (by decide) (by decide)
  exact ⟨h.1, h.2.1, h.2.2.1 6000 (.error "x") (by decide), h.2.2.2 99999 () (by decide)⟩

/-! ### Claim C6 -/

/-- Claim C6: a failure during the half-open state increments
`failureCount` and refreshes `lastFailureTime`, and the circuit
transitions back to Open exactly when the incremented count reaches the
`failureThreshold` of that call — otherwise it stays half-open, so a
single half-open trial failure does not necessarily reopen the circuit
(witness: a half-open circuit with `failureCount = 0` under threshold 5
stays half-open). -/
theorem c6_halfopen_failure_threshold
    (t : Nat) (rt now : Int) (c : CircuitState) (e : String) (A : Type)
    (h : c.state = .halfOpen) :
    (cbStep t rt now c (.error e : Except String A)).1 = .err e ∧
    (cbStep t rt now c (.error e : Except String A)).2.failureCount = c.failureCount + 1 ∧
    (cbStep t rt now c (.error e : Except String A)).2.lastFailureTime = now ∧
    ((cbStep t rt now c (.error e : Except String A)).2.state = .opened ↔
      t ≤ c.failureCount + 1) ∧
    ((cbStep t rt now c (.error e : Except String A)).2.state = .halfOpen ↔
      c.failureCount + 1 < t) := by
  have hne : c.state ≠ .opened := by
    rw [h]
    intro hc
    cases hc
  rw [cbStep_fail_notOpened t rt now c e hne]
  refine ⟨rfl, rfl, rfl, ?_, ?_⟩
  · by_cases hth : t ≤ c.failureCount + 1 <;> simp [hth, h]
  · by_cases hth : t ≤ c.failureCount + 1
    · simp [hth]
    · simp [hth, h]
      omega

/-- Claim C6 witness: threshold 5, a half-open circuit with
`failureCount = 0` — a trial failure yields count 1, a fresh failure
time, and a circuit that is NOT reopened (`1 < 5`). -/
theorem c6_witness :
    (cbStep 5 30000 7 ⟨CBState.halfOpen, 0, 0, 0⟩
        (.error "x" : Except String Unit)).1 = CBResult.err "x" ∧
    (cbStep 5 30000 7 ⟨CBState.halfOpen, 0, 0, 0⟩
        (.error "x" : Except String Unit)).2.failureCount = 0 + 1 ∧
    (cbStep 5 30000 7 ⟨CBState.halfOpen, 0, 0, 0⟩
        (.error "x" : Except String Unit)).2.lastFailureTime = 7 ∧
    (cbStep 5 30000 7 ⟨CBState.halfOpen, 0, 0, 0⟩
        (.error "x" : Except String Unit)).2.state = CBState.halfOpen := by
  have h := c6_halfopen_failure_threshold 5 30000 7 ⟨CBState.halfOpen, 0, 0, 0⟩ "x" Unit rfl
  exact ⟨h.1, h.2.1, h.2.2.1, h.2.2.2.2.mpr (by decide)⟩

/-! ### Claim C10 -/

/-- Claim C10, counterexample: a failed `executeWithRetry` call for an
operation named `circuit_X` does NOT replace the existing circuit entry
with an integer counter — JS evaluates `(circuitObject || 0) + 1` by
string coercion, leaving the string `"[object Object]1"` under the key. -/
theorem c10_counterexample :
    (executeWithRetry "circuit_X" (fun _ => (Except.error "boom" : Except String Unit))
        ⟨0, 1000, 2, 10000, none, none⟩
        (fun k => if k = "circuit_X" then some (.circuit ⟨CBState.closed, 3, 5, 7⟩)
          else none)).registry "circuit_X" = some (.jsString "[object Object]1") ∧
    isCounterEntry ((executeWithRetry "circuit_X"
        (fun _ => (Except.error "boom" : Except String Unit))
        ⟨0, 1000, 2, 10000, none, none⟩
        (fun k => if k = "circuit_X" then some (.circuit ⟨CBState.closed, 3, 5, 7⟩)
          else none)).registry "circuit_X") = false := by
  exact ⟨rfl, rfl⟩

/-- Claim C10 (amended: the failed run replaces the circuit entry with a
NON-circuit value — the JS coercion string `"[object Object]1"` when a
circuit object was present, an integer counter when the key was absent —
rather than always an integer counter): retry counters and circuit states
share the single `retryAttempts` map, so for an operation named
`circuit_X`, a successful `executeWithRetry` run deletes circuit `X`'s
state (the next lazy `getCircuitState` check recreates it fresh as
Closed with `failureCount = 0`), and a failed run overwrites whatever the
key held with `(previous || 0) + 1`. -/
theorem c10_shared_map_circuit_destruction
    (X : String) (A : Type) (action : Nat → Except String A)
    (cfg : RetryConfig) (reg : Registry) (now : Int) (v : A) (e : String)
    (c : CircuitState) :
    ((retryLoop cfg action 1 cfg.maxRetries).2 = .success v →
      (executeWithRetry ("circuit_" ++ X) action cfg reg).registry ("circuit_" ++ X) = none ∧
      (getCircuitState (executeWithRetry ("circuit_" ++ X) action cfg reg).registry
          ("circuit_" ++ X) now).1 = .circuit (freshCircuit now)) ∧
    ((retryLoop cfg action 1 cfg.maxRetries).2 = .failed e →
      (executeWithRetry ("circuit_" ++ X) action cfg reg).registry ("circuit_" ++ X) =
        some (jsTruthyIncrement (reg ("circuit_" ++ X))) ∧
      (reg ("circuit_" ++ X) = some (.circuit c) →
        (executeWithRetry ("circuit_" ++ X) action cfg reg).registry ("circuit_" ++ X) =
          some (.jsString "[object Object]1")) ∧
      (reg ("circuit_" ++ X) = none →
        (executeWithRetry ("circuit_" ++ X) action cfg reg).registry ("circuit_" ++ X) =
          some (.counter 1))) := by
  constructor
  · intro hs
    rw [executeWithRetry_of_success ("circuit_" ++ X) action cfg reg v hs]
    have hdel : (reg.del ("circuit_" ++ X)) ("circuit_" ++ X) = none := by
      simp [Registry.del]
    refine ⟨hdel, ?_⟩
    simp [getCircuitState, hdel]
  · intro hf
    rw [executeWithRetry_of_failed ("circuit_" ++ X) action cfg reg e hf]
    refine ⟨by simp [Registry.set], ?_, ?_⟩
    · intro hc
      simp [Registry.set, hc, jsTruthyIncrement]
    · intro hc
      simp [Registry.set, hc, jsTruthyIncrement]

/-- Claim C10 witness: two one-attempt runs for the name `"circuit_X"`
against a registry holding circuit X's state — the successful run leaves
the key empty and the next lazy check recreates a fresh closed circuit;
the failed run leaves the coercion string. -/
theorem c10_witness :
    ((executeWithRetry "circuit_X" (fun _ => (Except.ok () : Except String Unit))
        ⟨0, 1000, 2, 10000, none, none⟩
        (fun k => if k = "circuit_X" then some (.circuit ⟨CBState.opened, 9, 5, 7⟩)
          else none)).registry ("circuit_" ++ "X") = none ∧
      (getCircuitState (executeWithRetry "circuit_X"
          (fun _ => (Except.ok () : Except String Unit))
          ⟨0, 1000, 2, 10000, none, none⟩
          (fun k => if k = "circuit_X" then some (.circuit ⟨CBState.opened, 9, 5, 7⟩)
            else none)).registry ("circuit_" ++ "X") 42).1 =
        RegistryEntry.circuit (freshCircuit 42)) ∧
    ((executeWithRetry "circuit_X" (fun _ => (Except.error "boom" : Except String Unit))
        ⟨0, 1000, 2, 10000, none, none⟩
        (fun k => if k = "circuit_X" then some (.circuit ⟨CBState.opened, 9, 5, 7⟩)
          else none)).registry ("circuit_" ++ "X") =
        some (.jsString "[object Object]1")) := by
  have hs := (c10_shared_map_circuit_destruction "X" Unit (fun _ => .ok ())
    ⟨0, 1000, 2, 10000, none, none⟩
    (fun k => if k = "circuit_X" then some (.circuit ⟨CBState.opened, 9, 5, 7⟩) else none)
    42 () "" ⟨CBState.opened, 9, 5, 7⟩).1 rfl
  have hf := (c10_shared_map_circuit_destruction "X" Unit (fun _ => .error "boom")
    ⟨0, 1000, 2, 10000, none, none⟩
    (fun k => if k = "circuit_X" then some (.circuit ⟨CBState.opened, 9, 5, 7⟩) else none)
    42 () "boom" ⟨CBState.opened, 9, 5, 7⟩).2 rfl
  exact ⟨⟨hs.1, hs.2⟩, hf.2.1 rfl⟩

end ErrorRecovery
